import Mathlib

/-!
# Reference resolution of NUISANCE-HepData (`src/nuis/HEPData/ReferenceResolver.cxx`)

A shallow embedding of the reference resolver: the path layout, the endpoint
builder, the version resolver, the local resolver and the orchestrator,
followed by theorems about them.

Modelling conventions.

* A `std::filesystem::path` is its native string on a POSIX system; the
  operators `/=`, `+=` and `parent_path` are the functions `path_append`,
  string concatenation and `parent_path` below.
* A `cpr::Url` is a string.
* `fmt::format("{}", n)` of an integer is its decimal representation, which is
  `toString n`.
* The file system is the list of the entries on disk, each a regular file or a
  directory with its search and write permission, named by its path as
  written.  `std::filesystem::exists`, `create_directories` and `remove` are
  the overloads that throw: they fail with a `filesystem_error` when a name is
  longer than 255 bytes, when a directory on the way cannot be searched, when
  a regular file stands where a directory is needed or when a directory does
  not accept entries.  Opening the output stream can fail too, and does so
  without an exception, as the resolver does not test the stream.  The root
  directory and the current directory are not listed: they exist and accept
  entries.
* The network, the document parser, the logger level and the shell are
  collaborators of the resolver and are the fields of `Env`; every request
  sent and every shell command run is recorded in the `World`.
* Logging calls (`spdlog::debug`, `spdlog::trace`) have no effect on the
  result and are left out, and with them the local `yaml_opt`.
-/

namespace nuis.HEPData

/-! ## Data model -/

/-- Modelled from the spec: the declaration of `ResourceReference` lives in the
header `ReferenceResolver.hxx`, which is not part of the sources.  The fields
are the four of the data model: the source type, the record identifier, the
record version (zero means unresolved) and the resource name (empty means the
submission document).  The identifier and the version are integers, printed in
decimal by `fmt::format`. -/
structure ResourceReference where
  reftype : String
  recordid : Int
  recordvers : Int
  resourcename : String
deriving DecidableEq, Repr

/-! ## `std::filesystem::path` on a POSIX system -/

/-- `path::is_absolute()`: the path has a root directory, it starts with `/`. -/
def is_absolute (p : String) : Bool :=
  p.data.head? == some '/'

/-- `path::has_filename()`: the path is not empty and does not end in `/`. -/
def has_filename (p : String) : Bool :=
  match p.data.getLast? with
  | some c => c != '/'
  | none => false

/-- `path::operator/=`: an absolute right operand (or an empty left operand)
replaces the path; otherwise a separator is added when the left operand has a
file name, and the right operand is appended. -/
def path_append (p q : String) : String :=
  if is_absolute q || p.data.isEmpty then q
  else if has_filename p then p ++ "/" ++ q
  else p ++ q

/-- `path::parent_path()`: a path without a relative part (empty, or only
separators) is returned as it is; otherwise the last element is removed together
with the separators before it, but the root directory is kept. -/
def parent_path (p : String) : String :=
  if p.data.all (fun c => c == '/') then p
  else
    let q := p.data.rdropWhile (fun c => c != '/')
    let r := q.rdropWhile (fun c => c == '/')
    if r.isEmpty then (if q.isEmpty then "" else "/") else String.mk r

/-! ## Path layout and endpoint builder -/

/-- `get_expected_record_location` (lines 16-33). -/
def get_expected_record_location (ref : ResourceReference)
    (local_cache_root : String) : String :=
  if ref.reftype = "hepdata" then
    path_append local_cache_root
      ("hepdata/" ++ toString ref.recordid ++ "/HEPData-" ++ toString ref.recordid
        ++ "-v" ++ toString ref.recordvers)
  else if ref.reftype = "hepdata-sandbox" then
    path_append local_cache_root
      ("hepdata-sandbox/" ++ toString ref.recordid ++ "/HEPData-"
        ++ toString ref.recordid ++ "-v" ++ toString ref.recordvers)
  else if ref.reftype = "inspirehep" then
    path_append local_cache_root ("INSPIREHEP/" ++ toString ref.recordid)
  else
    local_cache_root

/-- `get_expected_resource_location` (lines 35-49). -/
def get_expected_resource_location (ref : ResourceReference)
    (local_cache_root : String) : String :=
  let expected_location := get_expected_record_location ref local_cache_root
  if ref.resourcename.data.length ≠ 0 then
    path_append expected_location ref.resourcename
  else
    path_append expected_location "submission.yaml"

/-- `get_record_endpoint` (lines 51-63). -/
def get_record_endpoint (ref : ResourceReference) : String :=
  let Endpoint := "https://www.hepdata.net/record/"
  if ref.reftype = "hepdata" then
    Endpoint ++ toString ref.recordid
  else if ref.reftype = "hepdata-sandbox" then
    Endpoint ++ ("sandbox/" ++ toString ref.recordid)
  else if ref.reftype = "inspirehep" then
    Endpoint ++ ("ins" ++ toString ref.recordid)
  else
    Endpoint

/-! ## Requests, responses, exceptions -/

/-- A GET request: the URL and the value of its `format` query parameter. -/
structure Request where
  url : String
  format : String
deriving DecidableEq, Repr

/-- What the resolver reads of a `cpr::Response`: the status code, the header
`content-type` and the body. -/
structure Response where
  status_code : Int
  content_type : String
  text : String
deriving DecidableEq, Repr

/-- The exceptions that leave the resolver: the `std::runtime_error`s it throws
itself, with their message, the `std::filesystem::filesystem_error` of a
file-system call that fails, and the failure of the document parser. -/
inductive Exception where
  | runtime_error (what : String)
  | filesystem_error
  | yaml_exception
deriving DecidableEq, Repr

/-! ## The file system -/

/-- What an entry on disk is: a regular file, or a directory with the two
permissions that matter to the resolver, whether names can be looked up in it
and whether entries can be created and removed in it. -/
inductive FileKind where
  | regular
  | directory (searchable writable : Bool)
deriving DecidableEq, Repr

/-- An entry on disk, named by its path. -/
structure FileEntry where
  path : String
  kind : FileKind
deriving DecidableEq, Repr

/-- The entry with the given path, if there is one. -/
def fs_find (fs : List FileEntry) (p : String) : Option FileEntry :=
  fs.find? (fun e => e.path == p)

/-- There is an entry with the given path. -/
def fs_has (fs : List FileEntry) (p : String) : Bool :=
  (fs_find fs p).isSome

/-- There is a directory with the given path. -/
def fs_is_directory (fs : List FileEntry) (p : String) : Bool :=
  match fs_find fs p with
  | some ⟨_, .directory _ _⟩ => true
  | _ => false

/-- The path itself preceded by all its ancestors, outermost first, without
the root directory: a path that is empty or made of separators only has no
element. -/
def path_chain : Nat → String → List String
  | 0, _ => []
  | fuel + 1, p =>
    if p.data.all (fun c => c == '/') then []
    else path_chain fuel (parent_path p) ++ [p]

/-- The length in bytes of the last element of a path. -/
def filename_size (p : String) : Nat :=
  (String.mk (p.data.reverse.takeWhile (fun c => c != '/')).reverse).utf8ByteSize

/-- Path resolution along a chain of ancestors, as `stat` does it: an element
longer than 255 bytes is an error, a missing ancestor or an ancestor that is a
regular file means the path does not exist, and an ancestor that cannot be
searched is an error. -/
def fs_walk (fs : List FileEntry) : List String → Except Exception Bool
  | [] => .ok true
  | d :: rest =>
    if 255 < filename_size d then .error .filesystem_error
    else
      match fs_find fs d with
      | none => .ok false
      | some e =>
        if rest.isEmpty then .ok true
        else
          match e.kind with
          | .regular => .ok false
          | .directory searchable _ =>
            if searchable then fs_walk fs rest else .error .filesystem_error

/-- `std::filesystem::exists`, the overload that throws: the answer, or a
`filesystem_error` when the status of the path cannot be determined.  The
empty path does not exist; the root directory does. -/
def fs_exists (fs : List FileEntry) (p : String) : Except Exception Bool :=
  if p.data.isEmpty then .ok false
  else fs_walk fs (path_chain (p.data.length + 1) p)

/-- Entries can be created and removed in the directory.  The root directory
and the current directory are not listed on disk and accept entries. -/
def dir_writable (fs : List FileEntry) (d : String) : Bool :=
  if d.data.all (fun c => c == '/') then true
  else
    match fs_find fs d with
    | some ⟨_, .directory searchable writable⟩ => searchable && writable
    | _ => false

/-- The directories of a chain are made in turn: an existing directory is
passed through if it can be searched, an existing regular file is an error, and
a missing directory is created if its parent accepts entries. -/
def create_chain (fs : List FileEntry) :
    List String → Except Exception Unit × List FileEntry
  | [] => (.ok (), fs)
  | d :: rest =>
    if 255 < filename_size d then (.error .filesystem_error, fs)
    else
      match fs_find fs d with
      | some e =>
        match e.kind with
        | .regular => (.error .filesystem_error, fs)
        | .directory searchable _ =>
          if rest.isEmpty || searchable then create_chain fs rest
          else (.error .filesystem_error, fs)
      | none =>
        if dir_writable fs (parent_path d) then
          create_chain (fs ++ [⟨d, .directory true true⟩]) rest
        else (.error .filesystem_error, fs)

/-- `std::filesystem::create_directories`, the overload that throws: the
directory and every missing ancestor come into existence, or a
`filesystem_error` is thrown; the file system after the call is returned in
both cases. -/
def create_directories (fs : List FileEntry) (p : String) :
    Except Exception Unit × List FileEntry :=
  if p.data.isEmpty then (.error .filesystem_error, fs)
  else create_chain fs (path_chain (p.data.length + 1) p)

/-- `std::ofstream of(path, std::ios::binary)`: whether the stream is open, and
the file system after the attempt.  An existing regular file is truncated,
which does not change what exists; a missing file is created when its directory
accepts entries; otherwise the open fails, without an exception. -/
def ofstream_open (fs : List FileEntry) (p : String) : Bool × List FileEntry :=
  match fs_exists fs p with
  | .error _ => (false, fs)
  | .ok true =>
    match fs_find fs p with
    | some ⟨_, .regular⟩ => (true, fs)
    | _ => (false, fs)
  | .ok false =>
    if dir_writable fs (parent_path p) then (true, fs ++ [⟨p, .regular⟩])
    else (false, fs)

/-- `std::filesystem::remove`, the overload that throws: a missing file is left
alone, an existing one is removed when its directory allows it. -/
def fs_remove (fs : List FileEntry) (p : String) :
    Except Exception Unit × List FileEntry :=
  match fs_exists fs p with
  | .error e => (.error e, fs)
  | .ok false => (.ok (), fs)
  | .ok true =>
    if dir_writable fs (parent_path p) then
      (.ok (), fs.filter (fun e => e.path != p))
    else (.error .filesystem_error, fs)

/-! ## The world the resolver acts on -/

/-- The collaborators: the HTTP transport (`cpr::Get`, `cpr::Download`), the
document parser (`YAML::Load(text)["version"].as<int>()`, which can fail), the
logger level (`spdlog::get_level()`, 0 is trace and 1 is debug) and the shell
(`std::system`, which returns an exit status and may change the file system). -/
structure Env where
  transport : Request → Response
  yaml_version : String → Option Int
  log_level : Nat
  system : String → List FileEntry → Int × List FileEntry

/-- The observable state: the entries on disk, the requests sent so far and the
shell commands run so far, both oldest first. -/
structure World where
  fs : List FileEntry
  requests : List Request
  commands : List String
deriving DecidableEq, Repr

/-! ## Local resolver, version resolver, orchestrator -/

/-- `ensure_local_path` (lines 65-146).  The result is the returned path or the
exception thrown, together with the world the call leaves behind. -/
def ensure_local_path (env : Env) (ref : ResourceReference)
    (local_cache_root : String) (w : World) : Except Exception String × World :=
  let expected_location := get_expected_resource_location ref local_cache_root
  match fs_exists w.fs expected_location with
  | .error e => (.error e, w)
  | .ok true => (.ok expected_location, w)
  | .ok false =>
    let expected_location_yaml := expected_location ++ ".yaml"
    match fs_exists w.fs expected_location_yaml with
    | .error e => (.error e, w)
    | .ok true => (.ok expected_location_yaml, w)
    | .ok false =>
      if ref.reftype = "inspirehep" then
        (.error (.runtime_error "Cannot yet fetch non-local inspirehep-type resources."), w)
      else
        let download_location :=
          get_expected_record_location ref local_cache_root ++ "/submission.zip"
        let download_dir := parent_path download_location
        match create_directories w.fs download_dir with
        | (.error e, fs1) =>
          (.error e, { fs := fs1, requests := w.requests, commands := w.commands })
        | (.ok _, fs1) =>
          let fs2 := (ofstream_open fs1 download_location).2
          let Endpoint := get_record_endpoint ref
          let req : Request := { url := Endpoint, format := "original" }
          let r := env.transport req
          let w1 : World :=
            { fs := fs2, requests := w.requests ++ [req], commands := w.commands }
          if r.status_code ≠ 200 then
            (.error (.runtime_error ("GET response code: " ++ toString r.status_code)), w1)
          else if r.content_type ≠ "application/zip" then
            (.error (.runtime_error ("GET response content-type: " ++ r.content_type
              ++ ", expected \"application/zip\"")), w1)
          else
            let redir := if env.log_level ≥ 1 then "" else "&>/dev/null"
            let unzip_command :=
              "cd " ++ download_dir ++ " && unzip submission.zip " ++ redir
            let res := env.system unzip_command w1.fs
            let errc := res.1
            let w2 : World :=
              { fs := res.2, requests := w1.requests,
                commands := w1.commands ++ [unzip_command] }
            if errc ≠ 0 then
              (.error (.runtime_error
                ("unzip command reported error: " ++ toString errc)), w2)
            else
              match fs_remove w2.fs download_location with
              | (.error e, fs3) =>
                (.error e, { fs := fs3, requests := w2.requests, commands := w2.commands })
              | (.ok _, fs3) =>
                (.ok expected_location,
                  { fs := fs3, requests := w2.requests, commands := w2.commands })

/-- `resolve_version` (lines 148-179). -/
def resolve_version (env : Env) (ref : ResourceReference) (w : World) :
    Except Exception ResourceReference × World :=
  if ref.recordvers = 0 then
    let Endpoint := get_record_endpoint ref
    let req : Request := { url := Endpoint, format := "json" }
    let r := env.transport req
    let w1 : World :=
      { fs := w.fs, requests := w.requests ++ [req], commands := w.commands }
    if r.status_code ≠ 200 then
      (.error (.runtime_error ("GET response code: " ++ toString r.status_code)), w1)
    else if r.content_type ≠ "application/json" then
      (.error (.runtime_error ("GET response content-type: " ++ r.content_type
        ++ ", expected \"application/json\"")), w1)
    else
      match env.yaml_version r.text with
      | none => (.error .yaml_exception, w1)
      | some v => (.ok { ref with recordvers := v }, w1)
  else
    (.ok ref, w)

/-- `resolve_reference_HEPData` (lines 181-192). -/
def resolve_reference_HEPData (env : Env) (ref : ResourceReference)
    (local_cache_root : String) (w : World) : Except Exception String × World :=
  if ref.reftype = "inspirehep" then
    ensure_local_path env ref local_cache_root w
  else
    match resolve_version env ref w with
    | (.error e, w1) => (.error e, w1)
    | (.ok ref1, w1) => ensure_local_path env ref1 local_cache_root w1

/-- `resolve_reference` (lines 194-202). -/
def resolve_reference (env : Env) (ref : ResourceReference)
    (local_cache_root : String) (w : World) : Except Exception String × World :=
  resolve_reference_HEPData env ref local_cache_root w

/-! ## Auxiliary definitions used to state and prove the properties -/

/-- The value of a decimal digit character. -/
def digit_value (c : Char) : Nat := c.toNat - 48

/-- The value of a string of decimal digits, most significant first. -/
def decimal_value (l : List Char) : Nat :=
  l.foldl (fun a c => 10 * a + digit_value c) 0

/-- The separator `path_append` puts after its left operand when the right
operand is relative: `/` after a path that has a file name, nothing after an
empty path or one that already ends in a separator. -/
def path_sep (p : String) : String :=
  if has_filename p then "/" else ""

/-- The relative path of a record of the hepdata family below the cache root,
for the sub-directory `subdir` (which ends in a separator). -/
def hepdata_subpath (subdir : String) (recordid recordvers : Int) : String :=
  subdir ++ toString recordid ++ "/HEPData-" ++ toString recordid ++ "-v" ++ toString recordvers

/-- The `std::runtime_error` thrown for a response that fails the status check
or the content-type check against `expected`: this is the error the
specification calls `RemoteError`; its message carries the status code or the
content type received. -/
def remote_error (r : Response) (expected : String) : Exception :=
  if r.status_code ≠ 200 then
    .runtime_error ("GET response code: " ++ toString r.status_code)
  else
    .runtime_error ("GET response content-type: " ++ r.content_type
      ++ ", expected \"" ++ expected ++ "\"")

/-- The `std::runtime_error` thrown for an inspirehep reference that is not in
the cache: the error the specification calls `UnsupportedOperation`. -/
def unsupported_operation : Exception :=
  .runtime_error "Cannot yet fetch non-local inspirehep-type resources."

/-- A mocked environment: the version lookup answers `version: 3` as JSON, the
download answers a zip archive, and the unpack command succeeds. -/
def mock_env : Env where
  transport := fun q =>
    if q.format = "json" then
      { status_code := 200, content_type := "application/json", text := "version: 3" }
    else
      { status_code := 200, content_type := "application/zip", text := "" }
  yaml_version := fun s => if s = "version: 3" then some 3 else none
  log_level := 2
  system := fun _ fs => (0, fs)

/-- A mocked environment whose transport answers every request with status 404. -/
def mock_env_404 : Env where
  transport := fun _ => { status_code := 404, content_type := "text/html", text := "" }
  yaml_version := fun _ => none
  log_level := 2
  system := fun _ fs => (0, fs)

/-- A mocked environment whose download answers status 200 with an HTML page. -/
def mock_env_html : Env where
  transport := fun q =>
    if q.format = "json" then
      { status_code := 200, content_type := "application/json", text := "version: 3" }
    else
      { status_code := 200, content_type := "text/html", text := "" }
  yaml_version := fun s => if s = "version: 3" then some 3 else none
  log_level := 2
  system := fun _ fs => (0, fs)

/-- An empty world: nothing on disk, nothing sent, nothing run. -/
def empty_world : World := { fs := [], requests := [], commands := [] }

/-- A directory that can be searched and written. -/
def directory_entry (p : String) : FileEntry := ⟨p, .directory true true⟩

/-- A regular file. -/
def file_entry (p : String) : FileEntry := ⟨p, .regular⟩

/-- A cache in which the directory of the inspirehep record 1234 exists but
cannot be searched, so that the status of the files in it cannot be
determined. -/
def world_unsearchable_record : World :=
  { fs := [directory_entry "/cache", directory_entry "/cache/INSPIREHEP",
      ⟨"/cache/INSPIREHEP/1234", .directory false true⟩],
    requests := [], commands := [] }

/-- A cache in which `/cache/hepdata` is a regular file. -/
def world_blocked_cache : World :=
  { fs := [directory_entry "/cache", file_entry "/cache/hepdata"],
    requests := [], commands := [] }

/-- A cache in which the directory of version 1 of the hepdata record 12345
exists, is empty and is read-only. -/
def world_readonly_record : World :=
  { fs := [directory_entry "/cache", directory_entry "/cache/hepdata",
      directory_entry "/cache/hepdata/12345",
      ⟨"/cache/hepdata/12345/HEPData-12345-v1", .directory true false⟩],
    requests := [], commands := [] }

/-! ## Facts about decimal formatting -/

theorem digitChar_mem (k : Nat) (hk : k < 10) :
    Nat.digitChar k ∈ ['0', '1', '2', '3', '4', '5', '6', '7', '8', '9'] := by
  interval_cases k <;> decide

theorem digit_value_digitChar (k : Nat) (hk : k < 10) :
    digit_value (Nat.digitChar k) = k := by
  interval_cases k <;> decide

theorem toDigitsCore_acc (f : Nat) : ∀ (n : Nat) (acc : List Char),
    Nat.toDigitsCore 10 f n acc = Nat.toDigitsCore 10 f n [] ++ acc := by
  induction f with
  | zero => intro n acc; simp [Nat.toDigitsCore]
  | succ f ih =>
    intro n acc
    simp only [Nat.toDigitsCore]
    split
    · simp
    · rw [ih (n / 10) (Nat.digitChar (n % 10) :: acc), ih (n / 10) [Nat.digitChar (n % 10)]]
      simp

theorem decimal_value_snoc (l : List Char) (c : Char) :
    decimal_value (l ++ [c]) = 10 * decimal_value l + digit_value c := by
  simp [decimal_value, List.foldl_append]

theorem decimal_value_toDigitsCore (f : Nat) : ∀ n : Nat, n < f →
    decimal_value (Nat.toDigitsCore 10 f n []) = n := by
  induction f with
  | zero => intro n h; omega
  | succ f ih =>
    intro n h
    simp only [Nat.toDigitsCore]
    split
    · rename_i h0
      have h1 : n % 10 = n := by omega
      have h2 := digit_value_digitChar (n % 10) (Nat.mod_lt _ (by decide))
      simp only [decimal_value, List.foldl_cons, List.foldl_nil, h2]
      omega
    · rename_i h0
      rw [toDigitsCore_acc, decimal_value_snoc, ih (n / 10) (by omega),
        digit_value_digitChar (n % 10) (Nat.mod_lt _ (by decide))]
      omega

theorem toDigitsCore_mem (f : Nat) : ∀ (n : Nat) (c : Char),
    c ∈ Nat.toDigitsCore 10 f n [] →
      c ∈ ['0', '1', '2', '3', '4', '5', '6', '7', '8', '9'] := by
  induction f with
  | zero => intro n c h; simp [Nat.toDigitsCore] at h
  | succ f ih =>
    intro n c
    simp only [Nat.toDigitsCore]
    split
    · intro h
      rw [List.mem_singleton] at h
      rw [h]; exact digitChar_mem _ (Nat.mod_lt _ (by decide))
    · rw [toDigitsCore_acc]
      intro h
      rcases List.mem_append.1 h with h | h
      · exact ih _ _ h
      · rw [List.mem_singleton] at h
        rw [h]; exact digitChar_mem _ (Nat.mod_lt _ (by decide))

theorem toDigitsCore_ne_nil (f n : Nat) : Nat.toDigitsCore 10 (f + 1) n [] ≠ [] := by
  simp only [Nat.toDigitsCore]
  split
  · simp
  · rw [toDigitsCore_acc]; simp

theorem nat_repr_data (n : Nat) : (Nat.repr n).data = Nat.toDigitsCore 10 (n + 1) n [] := rfl

theorem nat_repr_injective {m n : Nat} (h : Nat.repr m = Nat.repr n) : m = n := by
  have h1 := congrArg (fun s => decimal_value s.data) h
  simp only [nat_repr_data] at h1
  rwa [decimal_value_toDigitsCore _ _ (Nat.lt_succ_self _),
    decimal_value_toDigitsCore _ _ (Nat.lt_succ_self _)] at h1

theorem int_toString_ofNat (m : Nat) : toString (Int.ofNat m) = Nat.repr m := rfl

theorem int_toString_negSucc (m : Nat) :
    toString (Int.negSucc m) = "-" ++ Nat.repr (m + 1) := rfl

/-- The decimal representation of an integer consists of digits and `-`. -/
theorem int_toString_mem (n : Int) (c : Char) (h : c ∈ (toString n).data) :
    c ∈ ['-', '0', '1', '2', '3', '4', '5', '6', '7', '8', '9'] := by
  cases n with
  | ofNat m =>
    rw [int_toString_ofNat, nat_repr_data] at h
    exact List.mem_cons_of_mem _ (toDigitsCore_mem _ _ _ h)
  | negSucc m =>
    rw [int_toString_negSucc, String.data_append, nat_repr_data] at h
    rcases List.mem_append.1 h with h | h
    · have : c = '-' := by simpa using h
      rw [this]; exact List.mem_cons_self _ _
    · exact List.mem_cons_of_mem _ (toDigitsCore_mem _ _ _ h)

theorem int_toString_no_slash (n : Int) (c : Char) (h : c ∈ (toString n).data) :
    c ≠ '/' := by
  intro hc
  have := int_toString_mem n c h
  rw [hc] at this
  revert this
  decide

theorem int_toString_ne_nil (n : Int) : (toString n).data ≠ [] := by
  cases n with
  | ofNat m => rw [int_toString_ofNat, nat_repr_data]; exact toDigitsCore_ne_nil _ _
  | negSucc m => rw [int_toString_negSucc, String.data_append]; simp

theorem int_toString_injective {a b : Int} (h : toString a = toString b) : a = b := by
  have key : ∀ (m k : Nat), toString (Int.ofNat m) ≠ toString (Int.negSucc k) := by
    intro m k hmk
    have h1 : ('-' : Char) ∈ (toString (Int.ofNat m)).data := by
      rw [hmk, int_toString_negSucc, String.data_append]; simp
    rw [int_toString_ofNat, nat_repr_data] at h1
    have := toDigitsCore_mem _ _ _ h1
    revert this
    decide
  cases a with
  | ofNat m =>
    cases b with
    | ofNat k =>
      rw [int_toString_ofNat, int_toString_ofNat] at h
      rw [nat_repr_injective h]
    | negSucc k => exact absurd h (key m k)
  | negSucc m =>
    cases b with
    | ofNat k => exact absurd h.symm (key k m)
    | negSucc k =>
      rw [int_toString_negSucc, int_toString_negSucc] at h
      have h2 : (Nat.repr (m + 1)).data = (Nat.repr (k + 1)).data := by
        have := congrArg String.data h
        simpa [String.data_append] using this
      have h3 := nat_repr_injective (String.ext h2)
      have : m = k := by omega
      rw [this]

/-! ## Facts about paths -/

theorem path_append_relative (p q : String) (hq : is_absolute q = false) :
    path_append p q = p ++ path_sep p ++ q := by
  unfold path_append path_sep
  rw [hq]
  by_cases hp : p.data.isEmpty = true
  · have hp2 : p.data = [] := List.isEmpty_iff.1 hp
    have hf : has_filename p = false := by simp [has_filename, hp2]
    simp only [hp, Bool.or_true, if_true, hf]
    apply String.ext
    simp [String.data_append, hp2]
  · simp only [hp, Bool.or_self, Bool.false_eq_true, if_false]
    split <;> simp

theorem path_append_cancel (p q q' : String) (hq : is_absolute q = false)
    (hq' : is_absolute q' = false) (h : path_append p q = path_append p q') : q = q' := by
  rw [path_append_relative p q hq, path_append_relative p q' hq'] at h
  have h1 := congrArg String.data h
  simp only [String.data_append] at h1
  exact String.ext (List.append_cancel_left h1)

theorem has_filename_append (p q : String) (hq : q.data ≠ []) :
    has_filename (p ++ q) = has_filename q := by
  unfold has_filename
  rw [String.data_append, List.getLast?_append_of_ne_nil _ hq]

/-- A string that ends in the decimal representation of an integer has a file
name: it is not empty and does not end in a separator. -/
theorem has_filename_int (p : String) (n : Int) : has_filename (p ++ toString n) = true := by
  rw [has_filename_append _ _ (int_toString_ne_nil n)]
  unfold has_filename
  have hne := int_toString_ne_nil n
  rw [List.getLast?_eq_getLast _ hne]
  have := int_toString_no_slash n _ (List.getLast_mem hne)
  simpa using this

theorem split_at_slash : ∀ (a b r s : List Char), (∀ c ∈ a, c ≠ '/') → (∀ c ∈ b, c ≠ '/') →
    a ++ '/' :: r = b ++ '/' :: s → a = b ∧ r = s := by
  intro a
  induction a with
  | nil =>
    intro b r s _ hb h
    cases b with
    | nil => simpa using h
    | cons y b =>
      simp only [List.nil_append, List.cons_append, List.cons.injEq] at h
      exact absurd h.1.symm (hb y (List.mem_cons_self _ _))
  | cons x a ih =>
    intro b r s ha hb h
    cases b with
    | nil =>
      simp only [List.nil_append, List.cons_append, List.cons.injEq] at h
      exact absurd h.1 (ha x (List.mem_cons_self _ _))
    | cons y b =>
      simp only [List.cons_append, List.cons.injEq] at h
      obtain ⟨h1, h2⟩ := ih b r s (fun c hc => ha c (List.mem_cons_of_mem _ hc))
        (fun c hc => hb c (List.mem_cons_of_mem _ hc)) h.2
      exact ⟨by rw [h.1, h1], h2⟩

theorem hepdata_subpath_injective (subdir : String) (i v j u : Int)
    (h : hepdata_subpath subdir i v = hepdata_subpath subdir j u) : i = j ∧ v = u := by
  have h1 := congrArg String.data h
  simp only [hepdata_subpath, String.data_append, List.append_assoc] at h1
  have h2 := List.append_cancel_left h1
  simp only [List.cons_append] at h2
  obtain ⟨h4, h5⟩ := split_at_slash _ _ _ _ (int_toString_no_slash i) (int_toString_no_slash j) h2
  have hij : i = j := int_toString_injective (String.ext h4)
  subst hij
  simp only [List.cons.injEq, List.nil_append, true_and, List.append_cancel_left_eq] at h5
  exact ⟨rfl, int_toString_injective (String.ext h5)⟩

theorem is_absolute_hepdata_subpath (subdir : String) (i v : Int)
    (h : is_absolute subdir = false) (hne : subdir.data ≠ []) :
    is_absolute (hepdata_subpath subdir i v) = false := by
  unfold is_absolute at h ⊢
  simp only [hepdata_subpath, String.data_append, List.append_assoc]
  rw [List.head?_append_of_ne_nil _ hne]
  exact h

/-- The record location of a reference of the hepdata family, as a string. -/
theorem record_location_hepdata_family (subdir root : String) (i v : Int)
    (h : is_absolute subdir = false) (hne : subdir.data ≠ []) :
    path_append root (hepdata_subpath subdir i v)
      = root ++ path_sep root ++ hepdata_subpath subdir i v :=
  path_append_relative _ _ (is_absolute_hepdata_subpath subdir i v h hne)

theorem has_filename_append_int (p q : String) (n : Int) :
    has_filename (p ++ (q ++ toString n)) = true := by
  have : p ++ (q ++ toString n) = (p ++ q) ++ toString n := by
    apply String.ext; simp [String.data_append]
  rw [this]; exact has_filename_int _ n

theorem has_filename_hepdata_subpath (p subdir : String) (i v : Int) :
    has_filename (p ++ hepdata_subpath subdir i v) = true := by
  unfold hepdata_subpath
  exact has_filename_append_int p _ v

/-- The record location of a reference of a known source type has a file name:
it ends in the decimal representation of the version or of the record
identifier. -/
theorem has_filename_record_location (ref : ResourceReference) (root : String)
    (h : ref.reftype = "hepdata" ∨ ref.reftype = "hepdata-sandbox"
      ∨ ref.reftype = "inspirehep") :
    has_filename (get_expected_record_location ref root) = true := by
  unfold get_expected_record_location
  rcases h with h | h | h
  · rw [if_pos h]
    have := record_location_hepdata_family "hepdata/" root ref.recordid ref.recordvers
      (by decide) (by decide)
    unfold hepdata_subpath at this
    rw [this]
    exact has_filename_hepdata_subpath _ "hepdata/" _ _
  · have h0 : ref.reftype ≠ "hepdata" := by rw [h]; decide
    rw [if_neg h0, if_pos h]
    have := record_location_hepdata_family "hepdata-sandbox/" root ref.recordid
      ref.recordvers (by decide) (by decide)
    unfold hepdata_subpath at this
    rw [this]
    exact has_filename_hepdata_subpath _ "hepdata-sandbox/" _ _
  · have h0 : ref.reftype ≠ "hepdata" := by rw [h]; decide
    have h1 : ref.reftype ≠ "hepdata-sandbox" := by rw [h]; decide
    rw [if_neg h0, if_neg h1, if_pos h]
    have hrel : is_absolute ("INSPIREHEP/" ++ toString ref.recordid) = false := by
      simp [is_absolute, String.data_append]
    rw [path_append_relative _ _ hrel]
    exact has_filename_append_int _ _ _

/-- Claim C8: the record location is the cache root joined with
`hepdata/{id}/HEPData-{id}-v{vers}` for hepdata, with
`hepdata-sandbox/{id}/HEPData-{id}-v{vers}` for hepdata-sandbox, with
`INSPIREHEP/{id}` (the version does not occur) for inspirehep, and the cache
root itself for every other source type.  Joining a root with a relative path
writes the root, a separator unless the root is empty or already ends in one,
and the relative path. -/
theorem get_expected_record_location_layout (ref : ResourceReference) (root : String) :
    (ref.reftype = "hepdata" →
      get_expected_record_location ref root
        = root ++ path_sep root ++ ("hepdata/" ++ toString ref.recordid ++ "/HEPData-"
            ++ toString ref.recordid ++ "-v" ++ toString ref.recordvers)) ∧
    (ref.reftype = "hepdata-sandbox" →
      get_expected_record_location ref root
        = root ++ path_sep root ++ ("hepdata-sandbox/" ++ toString ref.recordid
            ++ "/HEPData-" ++ toString ref.recordid ++ "-v" ++ toString ref.recordvers)) ∧
    (ref.reftype = "inspirehep" →
      get_expected_record_location ref root
        = root ++ path_sep root ++ ("INSPIREHEP/" ++ toString ref.recordid)) ∧
    (ref.reftype ≠ "hepdata" → ref.reftype ≠ "hepdata-sandbox" →
      ref.reftype ≠ "inspirehep" → get_expected_record_location ref root = root) := by
  refine ⟨fun h => ?_, fun h => ?_, fun h => ?_, fun h0 h1 h2 => ?_⟩
  · unfold get_expected_record_location
    rw [if_pos h]
    exact record_location_hepdata_family "hepdata/" root _ _ (by decide) (by decide)
  · have h0 : ref.reftype ≠ "hepdata" := by rw [h]; decide
    unfold get_expected_record_location
    rw [if_neg h0, if_pos h]
    exact record_location_hepdata_family "hepdata-sandbox/" root _ _ (by decide) (by decide)
  · have h0 : ref.reftype ≠ "hepdata" := by rw [h]; decide
    have h1 : ref.reftype ≠ "hepdata-sandbox" := by rw [h]; decide
    unfold get_expected_record_location
    rw [if_neg h0, if_neg h1, if_pos h]
    exact path_append_relative _ _ (by simp [is_absolute, String.data_append])
  · unfold get_expected_record_location
    rw [if_neg h0, if_neg h1, if_neg h2]

/-- Witness of claim C8 on the four kinds of source type, for the cache root
`/cache`, a root with a trailing separator and an unknown source type. -/
theorem get_expected_record_location_layout_witness :
    get_expected_record_location ⟨"hepdata", 12345, 1, ""⟩ "/cache"
      = "/cache/hepdata/12345/HEPData-12345-v1" ∧
    get_expected_record_location ⟨"hepdata-sandbox", 7, 2, "t"⟩ "/cache/"
      = "/cache/hepdata-sandbox/7/HEPData-7-v2" ∧
    get_expected_record_location ⟨"inspirehep", 1234, 5, ""⟩ "/cache"
      = "/cache/INSPIREHEP/1234" ∧
    get_expected_record_location ⟨"zenodo", 1234, 5, ""⟩ "/cache" = "/cache" :=
  ⟨(get_expected_record_location_layout ⟨"hepdata", 12345, 1, ""⟩ "/cache").1 rfl,
   (get_expected_record_location_layout ⟨"hepdata-sandbox", 7, 2, "t"⟩ "/cache/").2.1 rfl,
   (get_expected_record_location_layout ⟨"inspirehep", 1234, 5, ""⟩ "/cache").2.2.1 rfl,
   (get_expected_record_location_layout ⟨"zenodo", 1234, 5, ""⟩ "/cache").2.2.2
     (by decide) (by decide) (by decide)⟩

/-- Claim C9: the record endpoint is the base URL followed by `{id}` for
hepdata, `sandbox/{id}` for hepdata-sandbox, `ins{id}` for inspirehep and nothing
for every other source type; two references with the same source type and
record identifier have the same endpoint, whatever their version and resource
name. -/
theorem get_record_endpoint_layout (ref : ResourceReference) :
    (ref.reftype = "hepdata" →
      get_record_endpoint ref = "https://www.hepdata.net/record/" ++ toString ref.recordid) ∧
    (ref.reftype = "hepdata-sandbox" →
      get_record_endpoint ref
        = "https://www.hepdata.net/record/sandbox/" ++ toString ref.recordid) ∧
    (ref.reftype = "inspirehep" →
      get_record_endpoint ref
        = "https://www.hepdata.net/record/ins" ++ toString ref.recordid) ∧
    (ref.reftype ≠ "hepdata" → ref.reftype ≠ "hepdata-sandbox" →
      ref.reftype ≠ "inspirehep" →
      get_record_endpoint ref = "https://www.hepdata.net/record/") ∧
    (∀ vers name, get_record_endpoint
        { reftype := ref.reftype, recordid := ref.recordid, recordvers := vers,
          resourcename := name } = get_record_endpoint ref) := by
  refine ⟨fun h => ?_, fun h => ?_, fun h => ?_, fun h0 h1 h2 => ?_, fun _ _ => rfl⟩
  · unfold get_record_endpoint
    rw [if_pos h]
  · have h0 : ref.reftype ≠ "hepdata" := by rw [h]; decide
    unfold get_record_endpoint
    simp only [if_neg h0, if_pos h]
    apply String.ext
    simp [String.data_append]
  · have h0 : ref.reftype ≠ "hepdata" := by rw [h]; decide
    have h1 : ref.reftype ≠ "hepdata-sandbox" := by rw [h]; decide
    unfold get_record_endpoint
    simp only [if_neg h0, if_neg h1, if_pos h]
    apply String.ext
    simp [String.data_append]
  · unfold get_record_endpoint
    simp only [if_neg h0, if_neg h1, if_neg h2]

/-- Witness of claim C9 on the four kinds of source type. -/
theorem get_record_endpoint_layout_witness :
    get_record_endpoint ⟨"hepdata", 12345, 1, ""⟩ = "https://www.hepdata.net/record/12345" ∧
    get_record_endpoint ⟨"hepdata-sandbox", 7, 2, "t"⟩
      = "https://www.hepdata.net/record/sandbox/7" ∧
    get_record_endpoint ⟨"inspirehep", 1234, 0, ""⟩
      = "https://www.hepdata.net/record/ins1234" ∧
    get_record_endpoint ⟨"zenodo", 1234, 5, ""⟩ = "https://www.hepdata.net/record/" :=
  ⟨(get_record_endpoint_layout ⟨"hepdata", 12345, 1, ""⟩).1 rfl,
   (get_record_endpoint_layout ⟨"hepdata-sandbox", 7, 2, "t"⟩).2.1 rfl,
   (get_record_endpoint_layout ⟨"inspirehep", 1234, 0, ""⟩).2.2.1 rfl,
   (get_record_endpoint_layout ⟨"zenodo", 1234, 5, ""⟩).2.2.2.1
     (by decide) (by decide) (by decide)⟩

theorem hepdata_subpath_ne (a b : String) (i v j u : Int) (n : Nat)
    (ha : a.data.length = n + 1) (hb : n + 1 < b.data.length)
    (h1 : a.data[n]? = some '/') (h2 : b.data[n]? ≠ some '/')
    (h : hepdata_subpath a i v = hepdata_subpath b j u) : False := by
  have h3 := congrArg (fun s => s.data[n]?) h
  simp only [hepdata_subpath, String.data_append, List.append_assoc] at h3
  rw [List.getElem?_append_left (by omega), List.getElem?_append_left (by omega)] at h3
  rw [h1] at h3
  exact h2 h3.symm

/-- Claim C10: for a fixed cache root, two references of known source types
have the same record location only if they have the same source type and the
same record identifier and, for hepdata and hepdata-sandbox, the same version. -/
theorem get_expected_record_location_injective (r1 r2 : ResourceReference)
    (root : String)
    (k1 : r1.reftype = "hepdata" ∨ r1.reftype = "hepdata-sandbox"
      ∨ r1.reftype = "inspirehep")
    (k2 : r2.reftype = "hepdata" ∨ r2.reftype = "hepdata-sandbox"
      ∨ r2.reftype = "inspirehep")
    (h : get_expected_record_location r1 root = get_expected_record_location r2 root) :
    r1.reftype = r2.reftype ∧ r1.recordid = r2.recordid ∧
      (r1.reftype = "hepdata" ∨ r1.reftype = "hepdata-sandbox" →
        r1.recordvers = r2.recordvers) := by
  have habs : ∀ (s : String) (i v : Int), (s = "hepdata/" ∨ s = "hepdata-sandbox/") →
      is_absolute (hepdata_subpath s i v) = false := by
    intro s i v hs
    rcases hs with hs | hs <;> subst hs <;>
      exact is_absolute_hepdata_subpath _ i v (by decide) (by decide)
  have hins : ∀ i : Int, is_absolute ("INSPIREHEP/" ++ toString i) = false := by
    intro i; simp [is_absolute, String.data_append]
  have e1 : ∀ r : ResourceReference, r.reftype = "hepdata" →
      get_expected_record_location r root
        = path_append root (hepdata_subpath "hepdata/" r.recordid r.recordvers) := by
    intro r hr; unfold get_expected_record_location; rw [if_pos hr]; rfl
  have e2 : ∀ r : ResourceReference, r.reftype = "hepdata-sandbox" →
      get_expected_record_location r root
        = path_append root (hepdata_subpath "hepdata-sandbox/" r.recordid r.recordvers) := by
    intro r hr
    have h0 : r.reftype ≠ "hepdata" := by rw [hr]; decide
    unfold get_expected_record_location; rw [if_neg h0, if_pos hr]; rfl
  have e3 : ∀ r : ResourceReference, r.reftype = "inspirehep" →
      get_expected_record_location r root
        = path_append root ("INSPIREHEP/" ++ toString r.recordid) := by
    intro r hr
    have h0 : r.reftype ≠ "hepdata" := by rw [hr]; decide
    have h1 : r.reftype ≠ "hepdata-sandbox" := by rw [hr]; decide
    unfold get_expected_record_location; rw [if_neg h0, if_neg h1, if_pos hr]
  have cross : ∀ (s : String) (i v j : Int), (s = "hepdata/" ∨ s = "hepdata-sandbox/") →
      hepdata_subpath s i v ≠ "INSPIREHEP/" ++ toString j := by
    intro s i v j hs hEq
    have h3 := congrArg (fun t => t.data.head?) hEq
    rcases hs with hs | hs <;> subst hs <;>
      simp [hepdata_subpath, String.data_append] at h3
  rcases k1 with k1 | k1 | k1 <;> rcases k2 with k2 | k2 | k2
  · rw [e1 r1 k1, e1 r2 k2] at h
    have := hepdata_subpath_injective _ _ _ _ _
      (path_append_cancel _ _ _ (habs _ _ _ (Or.inl rfl)) (habs _ _ _ (Or.inl rfl)) h)
    exact ⟨by rw [k1, k2], this.1, fun _ => this.2⟩
  · rw [e1 r1 k1, e2 r2 k2] at h
    have := path_append_cancel _ _ _ (habs _ _ _ (Or.inl rfl)) (habs _ _ _ (Or.inr rfl)) h
    exact (hepdata_subpath_ne _ _ _ _ _ _ 7 (by decide) (by decide) (by decide)
      (by decide) this).elim
  · rw [e1 r1 k1, e3 r2 k2] at h
    exact absurd (path_append_cancel _ _ _ (habs _ _ _ (Or.inl rfl)) (hins _) h)
      (cross _ _ _ _ (Or.inl rfl))
  · rw [e2 r1 k1, e1 r2 k2] at h
    have := path_append_cancel _ _ _ (habs _ _ _ (Or.inr rfl)) (habs _ _ _ (Or.inl rfl)) h
    exact (hepdata_subpath_ne _ _ _ _ _ _ 7 (by decide) (by decide) (by decide)
      (by decide) this.symm).elim
  · rw [e2 r1 k1, e2 r2 k2] at h
    have := hepdata_subpath_injective _ _ _ _ _
      (path_append_cancel _ _ _ (habs _ _ _ (Or.inr rfl)) (habs _ _ _ (Or.inr rfl)) h)
    exact ⟨by rw [k1, k2], this.1, fun _ => this.2⟩
  · rw [e2 r1 k1, e3 r2 k2] at h
    exact absurd (path_append_cancel _ _ _ (habs _ _ _ (Or.inr rfl)) (hins _) h)
      (cross _ _ _ _ (Or.inr rfl))
  · rw [e3 r1 k1, e1 r2 k2] at h
    exact absurd (path_append_cancel _ _ _ (hins _) (habs _ _ _ (Or.inl rfl)) h).symm
      (cross _ _ _ _ (Or.inl rfl))
  · rw [e3 r1 k1, e2 r2 k2] at h
    exact absurd (path_append_cancel _ _ _ (hins _) (habs _ _ _ (Or.inr rfl)) h).symm
      (cross _ _ _ _ (Or.inr rfl))
  · rw [e3 r1 k1, e3 r2 k2] at h
    have h3 := congrArg String.data (path_append_cancel _ _ _ (hins _) (hins _) h)
    simp only [String.data_append, List.append_cancel_left_eq] at h3
    refine ⟨by rw [k1, k2], int_toString_injective (String.ext h3), fun hh => ?_⟩
    rcases hh with hh | hh <;> rw [k1] at hh <;> exact absurd hh (by decide)

/-- Witness of claim C10: two inspirehep references that differ only in the
version, which their record location ignores, share the location, and they do
have the same source type and record identifier. -/
theorem get_expected_record_location_injective_witness :
    get_expected_record_location ⟨"inspirehep", 1234, 1, ""⟩ "/cache"
      = get_expected_record_location ⟨"inspirehep", 1234, 2, "t"⟩ "/cache" ∧
    (("inspirehep" : String) = "inspirehep" ∧ (1234 : Int) = 1234 ∧
      (("inspirehep" : String) = "hepdata" ∨ ("inspirehep" : String) = "hepdata-sandbox" →
        (1 : Int) = 2)) :=
  ⟨rfl, get_expected_record_location_injective ⟨"inspirehep", 1234, 1, ""⟩
    ⟨"inspirehep", 1234, 2, "t"⟩ "/cache" (Or.inr (Or.inr rfl)) (Or.inr (Or.inr rfl)) rfl⟩

theorem string_length_zero_iff (s : String) : s.data.length = 0 ↔ s = "" := by
  constructor
  · intro h
    exact String.ext (List.length_eq_zero.1 h)
  · intro h; rw [h]; rfl

/-- The name `get_expected_resource_location` appends: the resource name, or
`submission.yaml` when there is none. -/
theorem get_expected_resource_location_eq (ref : ResourceReference) (root : String) :
    get_expected_resource_location ref root
      = path_append (get_expected_record_location ref root)
          (if ref.resourcename = "" then "submission.yaml" else ref.resourcename) := by
  unfold get_expected_resource_location
  by_cases h : ref.resourcename = ""
  · have h0 : ¬ (ref.resourcename.data.length ≠ 0) := by
      rw [(string_length_zero_iff _).2 h]; simp
    simp only [if_neg h0, if_pos h]
  · have h0 : ref.resourcename.data.length ≠ 0 := fun hh => h ((string_length_zero_iff _).1 hh)
    simp only [if_pos h0, if_neg h]

/-- Claim C2, amended: for a resource name that is not an absolute path, the
resource location is the record directory, a separator (unless the record
directory is empty or ends in one) and the name, where the name is the resource
name when that is not empty and `submission.yaml` otherwise; the record
directory is then a leading part of the result, and for a known source type
the separator is always written. -/
theorem get_expected_resource_location_relative (ref : ResourceReference) (root : String)
    (hrel : is_absolute ref.resourcename = false) :
    get_expected_resource_location ref root
      = get_expected_record_location ref root
          ++ path_sep (get_expected_record_location ref root)
          ++ (if ref.resourcename = "" then "submission.yaml" else ref.resourcename) ∧
    (get_expected_record_location ref root).data
      <+: (get_expected_resource_location ref root).data ∧
    (ref.reftype = "hepdata" ∨ ref.reftype = "hepdata-sandbox"
        ∨ ref.reftype = "inspirehep" →
      get_expected_resource_location ref root
        = get_expected_record_location ref root ++ "/"
            ++ (if ref.resourcename = "" then "submission.yaml" else ref.resourcename)) := by
  have hname : is_absolute
      (if ref.resourcename = "" then "submission.yaml" else ref.resourcename) = false := by
    split
    · decide
    · exact hrel
  have heq := get_expected_resource_location_eq ref root
  rw [path_append_relative _ _ hname] at heq
  refine ⟨heq, ?_, fun hk => ?_⟩
  · rw [heq]
    simp only [String.data_append, List.append_assoc]
    exact List.prefix_append _ _
  · rw [heq, path_sep, if_pos (has_filename_record_location ref root hk)]

/-- Witness of claim C2 (amended): the reference of the claim, hepdata 12345
version 1 without a resource name, below the cache root `/cache`. -/
theorem get_expected_resource_location_relative_witness :
    is_absolute (ResourceReference.mk "hepdata" 12345 1 "").resourcename = false ∧
    get_expected_resource_location ⟨"hepdata", 12345, 1, ""⟩ "/cache"
      = "/cache/hepdata/12345/HEPData-12345-v1/submission.yaml" ∧
    (get_expected_record_location ⟨"hepdata", 12345, 1, ""⟩ "/cache").data
      <+: (get_expected_resource_location ⟨"hepdata", 12345, 1, ""⟩ "/cache").data :=
  ⟨by decide,
   (get_expected_resource_location_relative ⟨"hepdata", 12345, 1, ""⟩ "/cache"
      (by decide)).2.2 (Or.inl rfl),
   (get_expected_resource_location_relative ⟨"hepdata", 12345, 1, ""⟩ "/cache"
      (by decide)).2.1⟩

/-- Counterexample to claim C2 as stated: an absolute resource name replaces
the whole path, and the record directory is not a leading part of the result. -/
theorem get_expected_resource_location_absolute_name :
    get_expected_record_location ⟨"hepdata", 12345, 1, "/etc/passwd"⟩ "/cache"
      = "/cache/hepdata/12345/HEPData-12345-v1" ∧
    get_expected_resource_location ⟨"hepdata", 12345, 1, "/etc/passwd"⟩ "/cache"
      = "/etc/passwd" ∧
    ¬ ((get_expected_record_location ⟨"hepdata", 12345, 1, "/etc/passwd"⟩ "/cache").data
      <+: (get_expected_resource_location ⟨"hepdata", 12345, 1, "/etc/passwd"⟩
        "/cache").data) := by
  decide

theorem rdropWhile_append_of_all {α : Type} (p : α → Bool) (l : List α) :
    ∀ m : List α, (∀ x ∈ m, p x = true) → (l ++ m).rdropWhile p = l.rdropWhile p := by
  intro m
  induction m using List.reverseRecOn with
  | nil => intro _; simp
  | append_singleton m a ih =>
    intro h
    rw [← List.append_assoc, List.rdropWhile_concat_pos _ _ _ (h a (by simp))]
    exact ih (fun x hx => h x (by simp [hx]))

theorem has_filename_iff (p : String) :
    has_filename p = true ↔ ∃ (l : List Char) (c : Char), p.data = l ++ [c] ∧ c ≠ '/' := by
  unfold has_filename
  constructor
  · intro h
    rcases List.eq_nil_or_concat p.data with hnil | ⟨l, c, hc⟩
    · rw [hnil] at h; simp at h
    · rw [List.concat_eq_append] at hc
      refine ⟨l, c, hc, ?_⟩
      rw [hc] at h
      simpa using h
  · rintro ⟨l, c, hc, hne⟩
    rw [hc]
    simpa using hne

/-- The directory of `{dir}/submission.zip` is `dir`, for a directory path that
is not empty and does not end in a separator. -/
theorem parent_path_submission_zip (dir : String) (h : has_filename dir = true) :
    parent_path (dir ++ "/submission.zip") = dir := by
  obtain ⟨l, c, hc, hne⟩ := (has_filename_iff dir).1 h
  have hdata : (dir ++ "/submission.zip").data
      = (l ++ [c] ++ ['/']) ++ ("submission.zip" : String).data := by
    rw [String.data_append, hc]
    simp
  have hq : (dir ++ "/submission.zip").data.rdropWhile (fun c => c != '/')
      = l ++ [c] ++ ['/'] := by
    rw [hdata, rdropWhile_append_of_all _ _ _ (by decide)]
    exact List.rdropWhile_concat_neg _ _ _ (by decide)
  have hr : (l ++ [c] ++ ['/']).rdropWhile (fun c => c == '/') = l ++ [c] := by
    rw [List.rdropWhile_concat_pos _ _ _ (by decide)]
    exact List.rdropWhile_concat_neg _ _ _ (by simpa using hne)
  have hall : (dir ++ "/submission.zip").data.all (fun c => c == '/') = false := by
    rw [hdata]
    simp [List.all_append]
  unfold parent_path
  simp only [hall, Bool.false_eq_true, if_false, hq, hr]
  have hne2 : (l ++ [c]).isEmpty = false := by simp
  simp only [hne2, Bool.false_eq_true, if_false]
  exact String.ext hc.symm

/-! ## Facts about the file system -/

theorem fs_find_append_of_some (fs l : List FileEntry) (p : String) (e : FileEntry)
    (h : fs_find fs p = some e) : fs_find (fs ++ l) p = some e := by
  unfold fs_find at h ⊢
  rw [List.find?_append, h]
  rfl

theorem fs_find_append_new (fs : List FileEntry) (p : String) (k : FileKind)
    (h : fs_find fs p = none) : fs_find (fs ++ [⟨p, k⟩]) p = some ⟨p, k⟩ := by
  unfold fs_find at h ⊢
  rw [List.find?_append, h]
  simp [List.find?_cons]

/-- Making directories removes nothing and changes no entry. -/
theorem create_chain_keeps (l : List String) : ∀ (fs : List FileEntry) (p : String)
    (e : FileEntry), fs_find fs p = some e → fs_find (create_chain fs l).2 p = some e := by
  induction l with
  | nil => intro fs p e h; exact h
  | cons d rest ih =>
    intro fs p e h
    unfold create_chain
    split
    · exact h
    · split
      · split
        · exact h
        · split
          · exact ih fs p e h
          · exact h
      · split
        · exact ih _ p e (fs_find_append_of_some fs _ p e h)
        · exact h

/-- When a chain of directories has been made, each of them is a directory on
disk. -/
theorem create_chain_directories (l : List String) : ∀ (fs : List FileEntry),
    (create_chain fs l).1 = .ok () →
      ∀ d ∈ l, fs_is_directory (create_chain fs l).2 d = true := by
  induction l with
  | nil => intro fs _ d hd; exact absurd hd (List.not_mem_nil d)
  | cons x rest ih =>
    intro fs hok d hd
    unfold create_chain at hok ⊢
    split at hok
    · exact absurd hok (by simp)
    · rename_i hlen
      rw [if_neg hlen]
      split at hok
      · rename_i e hfind
        split at hok
        · exact absurd hok (by simp)
        · rename_i srch wr hkind
          split at hok
          · rename_i hcond
            simp only [hfind, hkind, hcond, if_true]
            rcases List.mem_cons.1 hd with hdx | hdr
            · have hx : fs_find (create_chain fs rest).2 x = some e :=
                create_chain_keeps rest fs x e hfind
              unfold fs_is_directory
              rw [hdx, hx]
              cases e with
              | mk pth knd =>
                simp only at hkind
                subst hkind
                rfl
            · exact ih fs hok d hdr
          · exact absurd hok (by simp)
      · rename_i hfind
        split at hok
        · rename_i hwr
          simp only [hfind, hwr, if_true]
          rcases List.mem_cons.1 hd with hdx | hdr
          · have hx := create_chain_keeps rest _ x _
              (fs_find_append_new fs x (.directory true true) hfind)
            unfold fs_is_directory
            rw [hdx, hx]
          · exact ih _ hok d hdr
        · exact absurd hok (by simp)

theorem mem_path_chain_self (p : String) (n : Nat)
    (h : p.data.all (fun c => c == '/') = false) : p ∈ path_chain (n + 1) p := by
  simp only [path_chain, h, Bool.false_eq_true, if_false]
  simp

/-- After a successful `create_directories` the directory is on disk. -/
theorem create_directories_directory (fs : List FileEntry) (p : String)
    (hp : has_filename p = true) (h : (create_directories fs p).1 = .ok ()) :
    fs_is_directory (create_directories fs p).2 p = true := by
  obtain ⟨l, c, hc, hne⟩ := (has_filename_iff p).1 hp
  have hall : p.data.all (fun c => c == '/') = false := by
    rw [hc]; simp [List.all_append, hne]
  have hemp : p.data.isEmpty = false := by rw [hc]; simp
  unfold create_directories at h ⊢
  simp only [hemp, Bool.false_eq_true, if_false] at h ⊢
  exact create_chain_directories _ fs h p (mem_path_chain_self p _ hall)

theorem create_directories_keeps (fs : List FileEntry) (d p : String) (e : FileEntry)
    (h : fs_find fs p = some e) : fs_find (create_directories fs d).2 p = some e := by
  unfold create_directories
  split
  · exact h
  · exact create_chain_keeps _ fs p e h

theorem ofstream_open_keeps (fs : List FileEntry) (z p : String) (e : FileEntry)
    (h : fs_find fs p = some e) : fs_find (ofstream_open fs z).2 p = some e := by
  unfold ofstream_open
  split
  · exact h
  · split <;> exact h
  · split
    · exact fs_find_append_of_some fs _ p e h
    · exact h

/-- A stream that is open has its file on disk. -/
theorem ofstream_open_has (fs : List FileEntry) (z : String)
    (h : (ofstream_open fs z).1 = true) : fs_has (ofstream_open fs z).2 z = true := by
  unfold ofstream_open at h ⊢
  split at h
  · exact absurd h (by simp)
  · split at h
    · rename_i hfind
      simp only [fs_has, hfind, Option.isSome_some]
    · exact absurd h (by simp)
  · split at h
    · rename_i hw
      simp only [hw, if_true]
      unfold fs_has fs_find
      rw [List.find?_append]
      cases hq : List.find? (fun e => e.path == z) fs with
      | some e => rfl
      | none => simp [List.find?_cons]
    · exact absurd h (by simp)

theorem fs_is_directory_of_find (fs fs2 : List FileEntry) (p : String)
    (hk : ∀ e, fs_find fs p = some e → fs_find fs2 p = some e)
    (h : fs_is_directory fs p = true) : fs_is_directory fs2 p = true := by
  unfold fs_is_directory at h ⊢
  cases hf : fs_find fs p with
  | none => rw [hf] at h; exact absurd h (by simp)
  | some e => rw [hk e hf]; rw [hf] at h; exact h

/-! ## The resolver -/

/-- Claim C4, amended: for an inspirehep reference, whatever its version, for
which the existence checks of the expected resource file and of its `.yaml`
variant both return false, `resolve_reference` throws the error for unsupported
inspirehep downloads, and the world is unchanged: no request was sent, no
command run, nothing on disk created or changed. -/
theorem resolve_reference_inspirehep_absent (env : Env) (ref : ResourceReference)
    (root : String) (w : World) (hty : ref.reftype = "inspirehep")
    (h1 : fs_exists w.fs (get_expected_resource_location ref root) = .ok false)
    (h2 : fs_exists w.fs (get_expected_resource_location ref root ++ ".yaml")
      = .ok false) :
    resolve_reference env ref root w = (.error unsupported_operation, w) := by
  simp only [resolve_reference, resolve_reference_HEPData, if_pos hty, ensure_local_path,
    h1, h2, if_true, unsupported_operation]

/-- Witness of claim C4 (amended): an unversioned inspirehep reference against
an empty cache, with a transport that would answer the requests if any were
sent. -/
theorem resolve_reference_inspirehep_absent_witness :
    resolve_reference mock_env ⟨"inspirehep", 1234, 0, ""⟩ "/cache" empty_world
      = (.error (.runtime_error "Cannot yet fetch non-local inspirehep-type resources."),
          empty_world) :=
  resolve_reference_inspirehep_absent mock_env ⟨"inspirehep", 1234, 0, ""⟩ "/cache"
    empty_world rfl rfl rfl

/-- Counterexample to claim C4 as stated: the directory of the inspirehep
record exists but cannot be searched; neither the expected resource file nor
its `.yaml` variant is on disk, yet the existence check throws a
`filesystem_error`, which is what `resolve_reference` fails with, not the error
for unsupported inspirehep downloads. -/
theorem resolve_reference_inspirehep_unsearchable :
    fs_has world_unsearchable_record.fs
      (get_expected_resource_location ⟨"inspirehep", 1234, 0, ""⟩ "/cache") = false ∧
    fs_has world_unsearchable_record.fs
      (get_expected_resource_location ⟨"inspirehep", 1234, 0, ""⟩ "/cache" ++ ".yaml")
      = false ∧
    resolve_reference mock_env ⟨"inspirehep", 1234, 0, ""⟩ "/cache"
        world_unsearchable_record
      = (.error .filesystem_error, world_unsearchable_record) ∧
    Exception.filesystem_error ≠ unsupported_operation :=
  ⟨by decide, by decide, rfl, by decide⟩

/-- Claim C7: `resolve_version` returns a reference whose version is set
unchanged and sends nothing; for an unset version and a lookup answered with
status 200, content type `application/json` and a body whose field `version` is
`v`, it returns the reference with the version `v` and the other three fields
as they were, having sent the one lookup request. -/
theorem resolve_version_spec (env : Env) (ref : ResourceReference) (w : World) :
    (ref.recordvers ≠ 0 → resolve_version env ref w = (.ok ref, w)) ∧
    (∀ v : Int, ref.recordvers = 0 →
      (env.transport ⟨get_record_endpoint ref, "json"⟩).status_code = 200 →
      (env.transport ⟨get_record_endpoint ref, "json"⟩).content_type = "application/json" →
      env.yaml_version (env.transport ⟨get_record_endpoint ref, "json"⟩).text = some v →
      resolve_version env ref w
        = (.ok { reftype := ref.reftype, recordid := ref.recordid, recordvers := v,
                 resourcename := ref.resourcename },
            { fs := w.fs, requests := w.requests ++ [⟨get_record_endpoint ref, "json"⟩],
              commands := w.commands })) := by
  constructor
  · intro h
    simp only [resolve_version, if_neg h]
  · intro v h0 hs hc hv
    simp only [resolve_version, if_pos h0, hs, hc, hv, ne_eq, not_true_eq_false, if_false]

/-- Witness of claim C7: a versioned reference is returned as it is, and the
unversioned one is completed with the version of the mocked answer. -/
theorem resolve_version_spec_witness :
    resolve_version mock_env ⟨"hepdata", 12345, 2, "t"⟩ empty_world
      = (.ok ⟨"hepdata", 12345, 2, "t"⟩, empty_world) ∧
    resolve_version mock_env ⟨"hepdata", 12345, 0, "t"⟩ empty_world
      = (.ok ⟨"hepdata", 12345, 3, "t"⟩,
          ⟨[], [⟨"https://www.hepdata.net/record/12345", "json"⟩], []⟩) :=
  ⟨(resolve_version_spec mock_env ⟨"hepdata", 12345, 2, "t"⟩ empty_world).1 (by decide),
   (resolve_version_spec mock_env ⟨"hepdata", 12345, 0, "t"⟩ empty_world).2 3 rfl rfl rfl rfl⟩

/-- The requests `ensure_local_path` adds: none, or one download request. -/
theorem ensure_local_path_requests (env : Env) (ref : ResourceReference)
    (root : String) (w : World) :
    ∃ rest : List Request,
      (ensure_local_path env ref root w).2.requests = w.requests ++ rest ∧
      (∀ q ∈ rest, q.format = "original") ∧ rest.length ≤ 1 := by
  unfold ensure_local_path
  simp only []
  repeat' split
  all_goals first
    | exact ⟨[⟨get_record_endpoint ref, "original"⟩], rfl,
        fun q hq => by rw [List.mem_singleton.1 hq], Nat.le_refl 1⟩
    | exact ⟨[], (List.append_nil _).symm, fun q hq => absurd hq (List.not_mem_nil q),
        Nat.zero_le 1⟩

/-- The version lookup of an unversioned reference sends its request whatever
the answer, and touches neither the disk nor the shell. -/
theorem resolve_version_unversioned_world (env : Env) (ref : ResourceReference)
    (w : World) (hv : ref.recordvers = 0) :
    (resolve_version env ref w).2
      = { fs := w.fs, requests := w.requests ++ [⟨get_record_endpoint ref, "json"⟩],
          commands := w.commands } := by
  unfold resolve_version
  simp only [if_pos hv]
  split_ifs
  · rfl
  · rfl
  · split <;> rfl

/-- Claim C5: for an unversioned hepdata or hepdata-sandbox reference,
`resolve_reference` adds to the requests sent the one version lookup
(`format=json`) first, followed by at most one request, a download
(`format=original`); and when the lookup is answered with a status other than
200 or a content type other than `application/json`, the call throws the
remote error for that answer, and the world only gains the lookup request: no
download is sent, nothing is created on disk, no command is run. -/
theorem resolve_reference_unversioned (env : Env) (ref : ResourceReference)
    (root : String) (w : World)
    (hty : ref.reftype = "hepdata" ∨ ref.reftype = "hepdata-sandbox")
    (hv : ref.recordvers = 0) :
    (∃ rest : List Request,
      (resolve_reference env ref root w).2.requests
        = w.requests ++ ⟨get_record_endpoint ref, "json"⟩ :: rest ∧
      (∀ q ∈ rest, q.format = "original") ∧ rest.length ≤ 1) ∧
    ((env.transport ⟨get_record_endpoint ref, "json"⟩).status_code ≠ 200 ∨
      (env.transport ⟨get_record_endpoint ref, "json"⟩).content_type ≠ "application/json" →
      resolve_reference env ref root w
        = (.error (remote_error (env.transport ⟨get_record_endpoint ref, "json"⟩)
            "application/json"),
            { fs := w.fs, requests := w.requests ++ [⟨get_record_endpoint ref, "json"⟩],
              commands := w.commands })) := by
  have hni : ref.reftype ≠ "inspirehep" := by
    rcases hty with h | h <;> rw [h] <;> decide
  have hw := resolve_version_unversioned_world env ref w hv
  constructor
  · simp only [resolve_reference, resolve_reference_HEPData, if_neg hni]
    rcases hrv : resolve_version env ref w with ⟨res, w1⟩
    rw [hrv] at hw
    simp only at hw
    cases res with
    | error e =>
      refine ⟨[], ?_, by simp, by simp⟩
      simp only [hw]
    | ok ref1 =>
      simp only
      obtain ⟨rest, h1, h2, h3⟩ := ensure_local_path_requests env ref1 root w1
      refine ⟨rest, ?_, h2, h3⟩
      rw [h1, hw]
      simp
  · intro hbad
    simp only [resolve_reference, resolve_reference_HEPData, if_neg hni, resolve_version,
      if_pos hv, remote_error]
    by_cases hs : (env.transport ⟨get_record_endpoint ref, "json"⟩).status_code ≠ 200
    · simp only [if_pos hs]
    · have hc : (env.transport ⟨get_record_endpoint ref, "json"⟩).content_type
          ≠ "application/json" := by
        rcases hbad with h | h
        · exact absurd h hs
        · exact h
      simp only [if_neg hs, if_pos hc]
      congr 3
      apply String.ext
      simp [String.data_append]

/-- Witness of claim C5: an unversioned hepdata reference whose version lookup
is answered with status 404. -/
theorem resolve_reference_unversioned_witness :
    resolve_reference mock_env_404 ⟨"hepdata", 12345, 0, ""⟩ "/cache" empty_world
      = (.error (.runtime_error "GET response code: 404"),
          ⟨[], [⟨"https://www.hepdata.net/record/12345", "json"⟩], []⟩) :=
  (resolve_reference_unversioned mock_env_404 ⟨"hepdata", 12345, 0, ""⟩ "/cache"
    empty_world (Or.inl rfl) rfl).2 (Or.inl (by decide))

/-- Claim C6, amended: for a hepdata or hepdata-sandbox reference for which
the existence checks of the expected resource file and of its `.yaml` variant
both return false and the creation of the record directory succeeds, a
download answered with a status other than 200, or with a content type other
than `application/zip`, makes `ensure_local_path` throw the remote error for
that answer; the unpack command is not run, the one download request was sent,
nothing is removed, the record directory is on disk afterwards, and so is the
file `submission.zip` in it whenever it could be opened for writing. -/
theorem ensure_local_path_download_rejected (env : Env) (ref : ResourceReference)
    (root : String) (w : World)
    (hty : ref.reftype = "hepdata" ∨ ref.reftype = "hepdata-sandbox")
    (h1 : fs_exists w.fs (get_expected_resource_location ref root) = .ok false)
    (h2 : fs_exists w.fs (get_expected_resource_location ref root ++ ".yaml")
      = .ok false)
    (hmk : (create_directories w.fs (get_expected_record_location ref root)).1 = .ok ())
    (hbad : (env.transport ⟨get_record_endpoint ref, "original"⟩).status_code ≠ 200 ∨
      (env.transport ⟨get_record_endpoint ref, "original"⟩).content_type
        ≠ "application/zip") :
    (ensure_local_path env ref root w).1
      = .error (remote_error (env.transport ⟨get_record_endpoint ref, "original"⟩)
          "application/zip") ∧
    (ensure_local_path env ref root w).2.commands = w.commands ∧
    (ensure_local_path env ref root w).2.requests
      = w.requests ++ [⟨get_record_endpoint ref, "original"⟩] ∧
    (ensure_local_path env ref root w).2.fs
      = (ofstream_open (create_directories w.fs (get_expected_record_location ref root)).2
          (get_expected_record_location ref root ++ "/submission.zip")).2 ∧
    fs_is_directory (ensure_local_path env ref root w).2.fs
      (get_expected_record_location ref root) = true ∧
    ((ofstream_open (create_directories w.fs (get_expected_record_location ref root)).2
          (get_expected_record_location ref root ++ "/submission.zip")).1 = true →
      fs_has (ensure_local_path env ref root w).2.fs
        (get_expected_record_location ref root ++ "/submission.zip") = true) ∧
    (∀ p e, fs_find w.fs p = some e →
      fs_find (ensure_local_path env ref root w).2.fs p = some e) := by
  have hni : ref.reftype ≠ "inspirehep" := by
    rcases hty with h | h <;> rw [h] <;> decide
  have hfn : has_filename (get_expected_record_location ref root) = true :=
    has_filename_record_location ref root
      (hty.elim Or.inl (fun h => Or.inr (Or.inl h)))
  have hpp := parent_path_submission_zip _ hfn
  have hdir := create_directories_directory w.fs _ hfn hmk
  rcases hcd : create_directories w.fs (get_expected_record_location ref root)
    with ⟨res, fs1⟩
  rw [hcd] at hmk hdir
  simp only at hmk hdir
  have hkeep1 : ∀ p e, fs_find w.fs p = some e → fs_find fs1 p = some e := by
    intro p e hp
    have := create_directories_keeps w.fs (get_expected_record_location ref root) p e hp
    rw [hcd] at this
    exact this
  have hout : ensure_local_path env ref root w
      = (.error (remote_error (env.transport ⟨get_record_endpoint ref, "original"⟩)
          "application/zip"),
          { fs := (ofstream_open fs1
              (get_expected_record_location ref root ++ "/submission.zip")).2,
            requests := w.requests ++ [⟨get_record_endpoint ref, "original"⟩],
            commands := w.commands }) := by
    simp only [ensure_local_path, h1, h2, if_neg hni, hpp, hcd, hmk, remote_error]
    by_cases hs : (env.transport ⟨get_record_endpoint ref, "original"⟩).status_code ≠ 200
    · simp only [if_pos hs]
    · have hc : (env.transport ⟨get_record_endpoint ref, "original"⟩).content_type
          ≠ "application/zip" := by
        rcases hbad with h | h
        · exact absurd h hs
        · exact h
      simp only [if_neg hs, if_pos hc]
      congr 3
      apply String.ext
      simp [String.data_append]
  rw [hout]
  refine ⟨rfl, rfl, rfl, rfl, ?_, fun hopen => ?_, fun p e hp => ?_⟩
  · exact fs_is_directory_of_find fs1 _ _ (fun e he => ofstream_open_keeps fs1 _ _ e he) hdir
  · exact ofstream_open_has fs1 _ hopen
  · exact ofstream_open_keeps fs1 _ p e (hkeep1 p e hp)

/-- Witness of claim C6 (amended): a versioned hepdata reference against an
empty cache, with a download answered by an HTML page; the directory and the
zip file are left on disk. -/
theorem ensure_local_path_download_rejected_witness :
    ensure_local_path mock_env_html ⟨"hepdata", 12345, 1, ""⟩ "/cache" empty_world
      = (.error (.runtime_error
          "GET response content-type: text/html, expected \"application/zip\""),
          ⟨[directory_entry "/cache", directory_entry "/cache/hepdata",
              directory_entry "/cache/hepdata/12345",
              directory_entry "/cache/hepdata/12345/HEPData-12345-v1",
              file_entry "/cache/hepdata/12345/HEPData-12345-v1/submission.zip"],
            [⟨"https://www.hepdata.net/record/12345", "original"⟩], []⟩) ∧
    fs_has (ensure_local_path mock_env_html ⟨"hepdata", 12345, 1, ""⟩ "/cache"
      empty_world).2.fs "/cache/hepdata/12345/HEPData-12345-v1/submission.zip" = true :=
  ⟨rfl,
   (ensure_local_path_download_rejected mock_env_html ⟨"hepdata", 12345, 1, ""⟩ "/cache"
      empty_world (Or.inl rfl) rfl rfl rfl (Or.inr (by decide))).2.2.2.2.2.1 rfl⟩

/-- Counterexample to claim C6 as stated, in two worlds where neither the
expected resource file nor its `.yaml` variant is on disk and the download
would be answered by an HTML page.  Where `/cache/hepdata` is a regular file,
the creation of the record directory throws a `filesystem_error` before any
request is sent, and that is what `ensure_local_path` fails with, not the
remote error.  Where the record directory is read-only, the remote error is
thrown, but the file `submission.zip` could not be created and is not on
disk. -/
theorem ensure_local_path_download_rejected_unwritable :
    (fs_exists world_blocked_cache.fs
        (get_expected_resource_location ⟨"hepdata", 12345, 1, ""⟩ "/cache") = .ok false ∧
      fs_exists world_blocked_cache.fs
        (get_expected_resource_location ⟨"hepdata", 12345, 1, ""⟩ "/cache" ++ ".yaml")
        = .ok false ∧
      ensure_local_path mock_env_html ⟨"hepdata", 12345, 1, ""⟩ "/cache"
          world_blocked_cache
        = (.error .filesystem_error, world_blocked_cache) ∧
      Exception.filesystem_error
        ≠ remote_error (mock_env_html.transport ⟨"https://www.hepdata.net/record/12345",
            "original"⟩) "application/zip") ∧
    (fs_exists world_readonly_record.fs
        (get_expected_resource_location ⟨"hepdata", 12345, 1, ""⟩ "/cache") = .ok false ∧
      fs_exists world_readonly_record.fs
        (get_expected_resource_location ⟨"hepdata", 12345, 1, ""⟩ "/cache" ++ ".yaml")
        = .ok false ∧
      ensure_local_path mock_env_html ⟨"hepdata", 12345, 1, ""⟩ "/cache"
          world_readonly_record
        = (.error (.runtime_error
            "GET response content-type: text/html, expected \"application/zip\""),
            { fs := world_readonly_record.fs,
              requests := [⟨"https://www.hepdata.net/record/12345", "original"⟩],
              commands := [] }) ∧
      fs_has (ensure_local_path mock_env_html ⟨"hepdata", 12345, 1, ""⟩ "/cache"
          world_readonly_record).2.fs
        "/cache/hepdata/12345/HEPData-12345-v1/submission.zip" = false) :=
  ⟨⟨rfl, rfl, rfl, by decide⟩, ⟨rfl, rfl, rfl, by decide⟩⟩

end nuis.HEPData
